import Mathlib

/-!
Verification of the parallel task pipeline of `rambollwong/rainbowcat`
(`pipeline/parallel_task_pipeline.go`).

The Go source is shallowly embedded below.  Values flowing through the
pipeline (`any` in Go) are modelled by a type parameter `α`; Go channels are
modelled by their observable data (capacity, FIFO content, closed flag);
goroutine interleavings relevant to the ordering and shutdown claims are
modelled by explicit small-step transition relations.  Go `panic` (close of a
closed channel, failed type assertion) is modelled by `Except.error`.
-/

namespace RainbowCat

/-- Source `Task` (`parallel_task_pipeline.go` line 9):
`type Task func(input any) (output any, ok bool)`.
The opaque `any` payload is the type parameter `α`. -/
abbrev Task (α : Type) : Type := α → α × Bool

/-- Source `TaskProvider` interface (lines 12-14): anything that yields a
`Task`.  Modelled as a record holding the yielded task. -/
structure TaskProvider (α : Type) where
  task : Task α

/-- A small universe of Go dynamic types, used to model the `any` boxing and
the runtime type assertion `input.(I)` that `GenericTaskProvider.Task`
performs (line 22). -/
inductive GoTy where
  | tString
  | tInt
  | tBool
  deriving DecidableEq

/-- Interpretation of the dynamic-type universe. -/
def GoTy.interp : GoTy → Type
  | .tString => String
  | .tInt => Int
  | .tBool => Bool

/-- A boxed Go `any` value: a dynamic type tag together with a payload of the
tagged type. -/
structure Dyn where
  tag : GoTy
  val : tag.interp

/-- Source `GenericTaskProvider[I, O any]` (line 17): a strongly typed
function from `I` to `(O, ok)`. -/
def GenericTaskProvider (I O : GoTy) : Type := I.interp → O.interp × Bool

/-- Source `GenericTaskProvider.Task` (lines 20-24).  The Go body runs
`g(input.(I))`: the type assertion `input.(I)` panics when the dynamic type
of `input` is not `I`.  The panic is modelled as `Except.error`. -/
def GenericTaskProvider.Task {I O : GoTy} (g : GenericTaskProvider I O) :
    Dyn → Except String (Dyn × Bool) :=
  fun input =>
    if h : input.tag = I then
      let r := g (cast (congrArg GoTy.interp h) input.val)
      Except.ok (⟨O, r.1⟩, r.2)
    else
      Except.error "interface conversion: input is not of type I"

/-- Source `Job` struct (lines 28-35).  `Input`/`Output` are Go `any` values
(`nil` modelled as `none`); `FinishedC` is the job's private completion
channel, identified by the allocation counter value current when
`make(chan struct{})` ran; `tpIndex` is the index of the owning stage (the
`tp *taskPipeline` back-reference). -/
structure Job (α : Type) where
  Input : Option α
  Output : Option α
  Ok : Bool
  FinishedC : Nat
  tpIndex : Nat

/-- Source `ParallelTaskPipeline.PushJob` (lines 155-165): the fresh job
built for a pushed input, owned by stage 0, with a freshly allocated
completion channel `sig`. -/
def mkPushJob (x : α) (sig : Nat) : Job α :=
  { Input := some x, Output := none, Ok := false, FinishedC := sig, tpIndex := 0 }

/-- Source `taskPipeline.loop` lines 86-90: the rebuild of a job forwarded to
the next stage — `job.Input = job.Output`, `job.Output = nil`,
`job.FinishedC = make(chan struct{})` (a freshly allocated channel `sig`),
`job.tp = tp.ptp.pipelines[tp.index+1]`. -/
def forwardJob (j : Job α) (sig : Nat) : Job α :=
  { Input := j.Output, Output := none, Ok := j.Ok, FinishedC := sig,
    tpIndex := j.tpIndex + 1 }

/-- The shutdown broadcast channel `closeC` (`make(chan struct{})`, line
134), observed only through `close` and through receives that fire once it
is closed. -/
structure CloseSignal where
  isClosed : Bool

/-- Go `close(ch)` on a `chan struct{}`: marks the channel closed, and
panics (`close of closed channel`) when the channel is already closed. -/
def closeChan (c : CloseSignal) : Except String CloseSignal :=
  if c.isClosed then Except.error "close of closed channel"
  else Except.ok { isClosed := true }

/-- Source `taskPipeline` struct (lines 59-65): stage index, the admission
channel `jobC` (represented by its buffer capacity, the value passed to
`make(chan *Job, maxConcurrentQuantities[i])`, line 139), and the stage's
task. -/
structure taskPipeline (α : Type) where
  index : Nat
  jobCCapacity : Nat
  jobTask : Task α

/-- Source `ParallelTaskPipeline` struct (lines 100-107).  `outputC` is the
result-delivery channel (`make(chan any)`, line 133), represented by a
channel identifier. -/
structure ParallelTaskPipeline (α : Type) where
  pipelineCount : Nat
  pipelines : List (taskPipeline α)
  noOutput : Bool
  outputC : Nat
  closeC : CloseSignal

/-- Source `RunParallelTaskPipeline` (lines 115-147).  `uint8` parameters
are modelled as `Fin 256`.  The three validation checks and the
construction loop (`for i := uint8(0); i < pipelineCount; i++`) are
transcribed directly; `getD` models the Go slice indexing, which the length
checks guarantee is in bounds. -/
def RunParallelTaskPipeline (pipelineCount : Fin 256)
    (maxConcurrentQuantities : List (Fin 256))
    (pipelineTaskProviders : List (TaskProvider α)) :
    Except String (ParallelTaskPipeline α) :=
  if pipelineCount.val = 0 then
    Except.error "invalid pipeline count"
  else if maxConcurrentQuantities.length ≠ pipelineCount.val then
    Except.error "invalid max concurrent quantities"
  else if pipelineTaskProviders.length ≠ pipelineCount.val then
    Except.error "invalid pipeline task providers"
  else
    Except.ok
      { pipelineCount := pipelineCount.val
        pipelines :=
          (List.range pipelineCount.val).map fun i =>
            { index := i
              jobCCapacity := (maxConcurrentQuantities.getD i 0).val
              jobTask := (pipelineTaskProviders.getD i ⟨fun a => (a, true)⟩).task }
        noOutput := false
        outputC := 0
        closeC := { isClosed := false } }

/-- Source `ParallelTaskPipeline.Close` (lines 150-152): the body is exactly
`close(p.closeC)`. -/
def ParallelTaskPipeline.Close (p : ParallelTaskPipeline α) :
    Except String (ParallelTaskPipeline α) :=
  (closeChan p.closeC).map fun c => { p with closeC := c }

/-- Source `ParallelTaskPipeline.NoOutput` (lines 168-171). -/
def ParallelTaskPipeline.NoOutput (p : ParallelTaskPipeline α) :
    ParallelTaskPipeline α :=
  { p with noOutput := true }

/-- Source `ParallelTaskPipeline.OutputC` (lines 176-181): returns `nil`
when `noOutput` is set, the result channel otherwise. -/
def ParallelTaskPipeline.OutputC (p : ParallelTaskPipeline α) : Option Nat :=
  if p.noOutput then none else some p.outputC

/-- Source `taskPipeline.loop`, non-last stage, lines 83-90: for each
admitted job, in admission order, once its completion signal fires — if
`!job.Ok` the job is dropped (`continue`), otherwise it is rebuilt and
forwarded to the next stage.  `stageForward` gives the list of values the
stage forwards, in forwarding order, for an admitted list of inputs. -/
def stageForward (task : Task α) (admitted : List α) : List α :=
  admitted.filterMap fun x =>
    let r := task x
    if r.2 then some r.1 else none

/-- Source `taskPipeline.loop`, last stage, lines 77-82: for each admitted
job, in admission order, once its completion signal fires the output is sent
on `outputC` unless `noOutput` is set.  Note the source delivers
`job.Output` without consulting `job.Ok`. -/
def stageDeliver (task : Task α) (noOutput : Bool) (admitted : List α) : List α :=
  if noOutput then [] else admitted.map fun x => (task x).1

/-- The per-job data flow of the whole pipeline (`taskPipeline.loop`
composed over the stage array built by `RunParallelTaskPipeline`): each
stage before the last forwards per `stageForward`, the stage with
`pipelineCount == index+1` delivers per `stageDeliver`.  The result is the
list of values delivered on the result channel, in delivery order, for a
list of pushed inputs given in push order.  (That each stage hands jobs on
in admission order — so that list order is preserved stage to stage — is
proved separately on the `DispatchStep` trace model below.) -/
def pipelineRun (tasks : List (Task α)) (noOutput : Bool) (inputs : List α) :
    List α :=
  match tasks with
  | [] => []
  | [t] => stageDeliver t noOutput inputs
  | t :: rest => pipelineRun rest noOutput (stageForward t inputs)

/-- The composition `T_N(T_(N-1)(...T_1(x)))` of the stage tasks' value
components. -/
def chain (tasks : List (Task α)) (x : α) : α :=
  tasks.foldl (fun a t => (t a).1) x

/-- Whether every stage's task reports `ok = true` for the value chain
starting at `x`. -/
def chainAllOk (tasks : List (Task α)) (x : α) : Bool :=
  match tasks with
  | [] => true
  | t :: rest => (t x).2 && chainAllOk rest (t x).1

/-- State of one stage's dispatch loop together with its environment, for
the ordering claim: `queue` is the admission channel's FIFO content (job
identifiers, head = next to be received at line 72), `finished` identifies
the jobs whose `run` goroutine has completed its task (line 49) and can
fire `FinishedC`, `forwarded` lists, in order, the jobs the loop has already
handed on (forwarded, delivered or dropped). -/
structure DispatchState where
  queue : List Nat
  finished : List Nat
  forwarded : List Nat

/-- Interleaving semantics of `taskPipeline.loop` (lines 69-96) with its
jobs' `run` goroutines: a `finish` step is some admitted job's task
completing (in any order — `run` goroutines are concurrent); a `dispatch`
step is the loop receiving the head job from `jobC` (line 72) and then its
`FinishedC` (line 76) — the loop waits on the *received* job's signal, so
only the queue head can be dispatched, and only once finished. -/
inductive DispatchStep : DispatchState → DispatchState → Prop where
  | finish (s : DispatchState) (id : Nat) (hq : id ∈ s.queue)
      (hf : id ∉ s.finished) :
      DispatchStep s { s with finished := id :: s.finished }
  | dispatch (s : DispatchState) (id : Nat) (rest : List Nat)
      (hq : s.queue = id :: rest) (hf : id ∈ s.finished) :
      DispatchStep s
        { queue := rest, finished := s.finished,
          forwarded := s.forwarded ++ [id] }

/-- States reachable by the stage dispatch loop from an admitted FIFO
`admitted` with nothing yet finished or forwarded. -/
def DispatchReachable (admitted : List Nat) (s : DispatchState) : Prop :=
  Relation.ReflTransGen DispatchStep
    { queue := admitted, finished := [], forwarded := [] } s

/-- Program points at which an execution unit of the pipeline can block, as
written in the source: `doEnqueue` is `Job.do` blocked on its select
(lines 39-44), `runSignal` is `Job.run` blocked on its select (lines 50-53),
`loopOuter` is the dispatch loop's outer select (lines 71-72, 92),
`loopInner` is its inner select (lines 73-76), and `loopDeliver` is the last
stage's send `tp.ptp.outputC <- job.Output` (line 79), which in the source
is a bare send, not part of any select. -/
inductive ProcState (α : Type) where
  | doEnqueue (j : Job α) : ProcState α
  | runSignal : ProcState α
  | loopOuter : ProcState α
  | loopInner (j : Job α) : ProcState α
  | loopDeliver (o : Option α) : ProcState α
  | terminated : ProcState α

/-- One step of a blocked execution unit.  `closed` says the shutdown
channel `closeC` has been closed (so its receive case is ready);
`peerReady` says the blocking operation's channel peer is ready (room in
`jobC`, the loop waiting on `FinishedC`, a job available, the job finished,
or a consumer receiving on `outputC`, respectively).  Each select of the
source contributes one transition per ready case; the bare send at line 79
contributes only `deliverSend` — the source gives it no `closeC` case.
Successor states abstract the non-blocking code between suspension points;
a unit that returns is `terminated`. -/
inductive PipeStep (closed peerReady isLast noOutput : Bool) :
    ProcState α → ProcState α → Prop where
  | doClose (j : Job α) (h : closed = true) :
      PipeStep closed peerReady isLast noOutput (.doEnqueue j) .terminated
  | doSend (j : Job α) (h : peerReady = true) :
      PipeStep closed peerReady isLast noOutput (.doEnqueue j) .terminated
  | runClose (h : closed = true) :
      PipeStep closed peerReady isLast noOutput .runSignal .terminated
  | runSend (h : peerReady = true) :
      PipeStep closed peerReady isLast noOutput .runSignal .terminated
  | outerClose (h : closed = true) :
      PipeStep closed peerReady isLast noOutput .loopOuter .terminated
  | outerRecv (j : Job α) (h : peerReady = true) :
      PipeStep closed peerReady isLast noOutput .loopOuter (.loopInner j)
  | innerClose (j : Job α) (h : closed = true) :
      PipeStep closed peerReady isLast noOutput (.loopInner j) .terminated
  | innerFinishDeliver (j : Job α) (h : peerReady = true)
      (hl : isLast = true) (hn : noOutput = false) :
      PipeStep closed peerReady isLast noOutput (.loopInner j)
        (.loopDeliver j.Output)
  | innerFinishContinue (j : Job α) (h : peerReady = true)
      (hc : isLast = false ∨ noOutput = true) :
      PipeStep closed peerReady isLast noOutput (.loopInner j) .loopOuter
  | deliverSend (o : Option α) (h : peerReady = true) :
      PipeStep closed peerReady isLast noOutput (.loopDeliver o) .loopOuter

/-- A concrete open controller, used as a witness input below. -/
def sampleController : ParallelTaskPipeline Nat :=
  { pipelineCount := 1, pipelines := [], noOutput := false, outputC := 0,
    closeC := { isClosed := false } }

/-! Helper lemmas. -/

/-- When the task reports `ok = true` on every admitted input, a forwarding
stage forwards every job, in order, mapped through the task's value
component. -/
theorem stageForward_eq_map (t : Task α) (inputs : List α)
    (h : ∀ x ∈ inputs, (t x).2 = true) :
    stageForward t inputs = inputs.map fun x => (t x).1 := by
  induction inputs with
  | nil => rfl
  | cons y ys ih =>
    have hy : (t y).2 = true := h y (by simp)
    have hys : ∀ x ∈ ys, (t x).2 = true := fun x hx => h x (by simp [hx])
    simp only [stageForward, List.filterMap_cons, List.map_cons] at ih ⊢
    rw [hy]
    simp only [if_true]
    exact congrArg _ (ih hys)

/-- C6: `RunParallelTaskPipeline` returns a validation error exactly when
the stage count is 0 or one of the two arrays' lengths differs from it;
otherwise it returns a controller with one stage per index, admission
queues of the configured capacities, output not suppressed, and no
error. -/
theorem runParallelTaskPipeline_validation (n : Fin 256) (qs : List (Fin 256))
    (ps : List (TaskProvider α)) :
    ((n.val = 0 ∨ qs.length ≠ n.val ∨ ps.length ≠ n.val) →
      ∃ e, RunParallelTaskPipeline n qs ps = Except.error e) ∧
    (n.val ≠ 0 → qs.length = n.val → ps.length = n.val →
      ∃ p, RunParallelTaskPipeline n qs ps = Except.ok p ∧
        p.pipelineCount = n.val ∧
        p.pipelines.map taskPipeline.index = List.range n.val ∧
        p.pipelines.map taskPipeline.jobCCapacity = qs.map Fin.val ∧
        p.noOutput = false) := by
  constructor
  · intro h
    unfold RunParallelTaskPipeline
    by_cases h0 : n.val = 0
    · rw [if_pos h0]; exact ⟨_, rfl⟩
    · rw [if_neg h0]
      by_cases h1 : qs.length ≠ n.val
      · rw [if_pos h1]; exact ⟨_, rfl⟩
      · rw [if_neg h1]
        have h2 : ps.length ≠ n.val := by tauto
        rw [if_pos h2]; exact ⟨_, rfl⟩
  · intro h0 h1 h2
    unfold RunParallelTaskPipeline
    rw [if_neg h0, if_neg (fun hc => hc h1), if_neg (fun hc => hc h2)]
    refine ⟨_, rfl, rfl, ?_, ?_, rfl⟩
    · refine List.ext_getElem (by simp) ?_
      intro i hi₁ hi₂
      simp only [List.getElem_map, List.getElem_range]
    · refine List.ext_getElem (by simp [h1]) ?_
      intro i hi₁ hi₂
      have hiq : i < qs.length := by simp at hi₂; omega
      simp only [List.getElem_map, List.getElem_range]
      rw [List.getD_eq_getElem _ _ hiq]

/-- Witness for `runParallelTaskPipeline_validation`: a zero stage count is
rejected, and a concrete two-stage configuration with capacities `[3, 0]`
is accepted with those capacities. -/
theorem runParallelTaskPipeline_validation_witness :
    (∃ e, RunParallelTaskPipeline 0 [] ([] : List (TaskProvider Nat)) =
        Except.error e) ∧
    (∃ p, RunParallelTaskPipeline 2 [3, 0]
        [(⟨fun a => (a, true)⟩ : TaskProvider Nat), ⟨fun a => (a + 1, true)⟩] =
          Except.ok p ∧
        p.pipelineCount = (2 : Fin 256).val ∧
        p.pipelines.map taskPipeline.index = List.range (2 : Fin 256).val ∧
        p.pipelines.map taskPipeline.jobCCapacity =
          ([3, 0] : List (Fin 256)).map Fin.val ∧
        p.noOutput = false) :=
  ⟨(runParallelTaskPipeline_validation 0 [] []).1 (Or.inl rfl),
   (runParallelTaskPipeline_validation 2 [3, 0] _).2 (by decide) (by decide)
     (by decide)⟩

/-- C10: the constructor's stage count and per-stage concurrency limits are
8-bit unsigned integers (modelled as `Fin 256`), so every successfully
built pipeline has at most 255 stages and every admission queue a capacity
of at most 255; and a per-stage limit of 0 passes validation, yielding an
unbuffered (capacity-0, rendezvous) admission queue. -/
theorem uint8_config_bounds (n : Fin 256) (qs : List (Fin 256))
    (ps : List (TaskProvider α)) (p : ParallelTaskPipeline α)
    (h : RunParallelTaskPipeline n qs ps = Except.ok p) :
    p.pipelineCount ≤ 255 ∧
    (∀ tp ∈ p.pipelines, tp.jobCCapacity ≤ 255) ∧
    (∃ q : ParallelTaskPipeline Nat,
        RunParallelTaskPipeline 1 [0] [⟨fun a => (a, true)⟩] = Except.ok q ∧
        q.pipelines.map taskPipeline.jobCCapacity = [0]) := by
  unfold RunParallelTaskPipeline at h
  by_cases h0 : n.val = 0
  · rw [if_pos h0] at h; exact absurd h (by simp)
  rw [if_neg h0] at h
  by_cases h1 : qs.length ≠ n.val
  · rw [if_pos h1] at h; exact absurd h (by simp)
  rw [if_neg h1] at h
  by_cases h2 : ps.length ≠ n.val
  · rw [if_pos h2] at h; exact absurd h (by simp)
  rw [if_neg h2] at h
  injection h with h3
  subst h3
  refine ⟨?_, ?_, ⟨_, rfl, rfl⟩⟩
  · have := n.isLt
    simpa using by omega
  · intro tp htp
    simp only [List.mem_map, List.mem_range] at htp
    obtain ⟨i, _, rfl⟩ := htp
    have := (qs.getD i 0).isLt
    simpa using by omega

/-- Witness for `uint8_config_bounds` at the concrete configuration
`(1, [0], [identity task])`. -/
theorem uint8_config_bounds_witness :
    ∃ q : ParallelTaskPipeline Nat,
      RunParallelTaskPipeline 1 [0] [⟨fun a => (a, true)⟩] = Except.ok q ∧
      (q.pipelineCount ≤ 255 ∧
        (∀ tp ∈ q.pipelines, tp.jobCCapacity ≤ 255) ∧
        (∃ q2 : ParallelTaskPipeline Nat,
          RunParallelTaskPipeline 1 [0] [⟨fun a => (a, true)⟩] = Except.ok q2 ∧
          q2.pipelines.map taskPipeline.jobCCapacity = [0])) :=
  ⟨_, rfl, uint8_config_bounds 1 [0] [⟨fun a => (a, true)⟩] _ rfl⟩

/-- C5 counterexample: on a freshly constructed controller, `Close` followed
by `Close` panics (`close` of a closed channel), so `Close` is neither
idempotent nor guarded. -/
theorem close_twice_panics :
    ∃ (p p' : ParallelTaskPipeline Nat) (e : String),
      RunParallelTaskPipeline 1 [1] [⟨fun a => (a, true)⟩] = Except.ok p ∧
      p.Close = Except.ok p' ∧
      p'.Close = Except.error e :=
  ⟨_, _, _, rfl, rfl, rfl⟩

/-- C5 (amended): a single `Close` on an open controller closes the
broadcast channel exactly once and returns normally, but `Close` is
unguarded — a second `Close` on the same controller panics with
`close of closed channel`. -/
theorem close_once_then_panic (p : ParallelTaskPipeline α)
    (h : p.closeC.isClosed = false) :
    ∃ p', p.Close = Except.ok p' ∧ p'.closeC.isClosed = true ∧
      ∃ e, p'.Close = Except.error e := by
  refine ⟨{ p with closeC := { isClosed := true } }, ?_, rfl,
    "close of closed channel", ?_⟩
  · simp [ParallelTaskPipeline.Close, closeChan, h, Except.map]
  · simp [ParallelTaskPipeline.Close, closeChan, Except.map]

/-- Witness for `close_once_then_panic` on a concrete open controller. -/
theorem close_once_then_panic_witness :
    sampleController.closeC.isClosed = false ∧
    (∃ p', sampleController.Close = Except.ok p' ∧
      p'.closeC.isClosed = true ∧ ∃ e, p'.Close = Except.error e) :=
  ⟨rfl, close_once_then_panic sampleController rfl⟩

/-- A pipeline configured with `noOutput` delivers nothing from its last
stage, whatever the stages and inputs. -/
theorem pipelineRun_noOutput (tasks : List (Task α)) (inputs : List α) :
    pipelineRun tasks true inputs = [] := by
  induction tasks generalizing inputs with
  | nil => rfl
  | cons t rest ih =>
    cases rest with
    | nil => simp [pipelineRun, stageDeliver]
    | cons r rs => simpa [pipelineRun] using ih (stageForward t inputs)

/-- C9: `OutputC` exposes the result channel exactly when output is not
suppressed; after `NoOutput` it returns `none`, and with output suppressed
the last stage never delivers anything — final outputs are discarded. -/
theorem outputC_exposure (p : ParallelTaskPipeline α) (tasks : List (Task α))
    (inputs : List α) (h : p.noOutput = false) :
    p.OutputC = some p.outputC ∧
    (p.NoOutput).OutputC = none ∧
    pipelineRun tasks true inputs = [] := by
  refine ⟨?_, ?_, pipelineRun_noOutput tasks inputs⟩
  · simp [ParallelTaskPipeline.OutputC, h]
  · simp [ParallelTaskPipeline.OutputC, ParallelTaskPipeline.NoOutput]

/-- Witness for `outputC_exposure` on a concrete controller, stage list and
input list. -/
theorem outputC_exposure_witness :
    sampleController.noOutput = false ∧
    (sampleController.OutputC = some sampleController.outputC ∧
      sampleController.NoOutput.OutputC = none ∧
      pipelineRun [fun n : Nat => (n + 1, true)] true [1, 2] = []) :=
  ⟨rfl, outputC_exposure sampleController [fun n : Nat => (n + 1, true)] [1, 2]
    rfl⟩

/-- C7: a job forwarded to the next stage is rebuilt with its input equal to
its previous output, its output cleared, ownership moved to stage
`index + 1`, and a freshly allocated completion signal: under the allocator
invariant (every already-allocated signal is below the counter `c`), the
signal of the rebuilt job — like that of a freshly pushed job — is distinct
from every signal allocated before, so completion signals are never reused
across (re)submissions. -/
theorem forward_rebuild_fresh (j : Job α) (x : α) (c : Nat) (used : List Nat)
    (hused : ∀ s ∈ used, s < c) :
    (forwardJob j c).Input = j.Output ∧
    (forwardJob j c).Output = none ∧
    (forwardJob j c).tpIndex = j.tpIndex + 1 ∧
    (forwardJob j c).FinishedC = c ∧
    (forwardJob j c).FinishedC ∉ used ∧
    (mkPushJob x c).FinishedC = c ∧
    (mkPushJob x c).FinishedC ∉ used := by
  have hfresh : c ∉ used := fun hc => absurd (hused c hc) (Nat.lt_irrefl c)
  exact ⟨rfl, rfl, rfl, rfl, hfresh, rfl, hfresh⟩

/-- Witness for `forward_rebuild_fresh` on a concrete job, counter and
allocated-signal list. -/
theorem forward_rebuild_fresh_witness :
    (∀ s ∈ [0, 1, 4], s < 5) ∧
    ((forwardJob (⟨some 1, some 2, true, 0, 0⟩ : Job Nat) 5).Input = some 2 ∧
      (forwardJob (⟨some 1, some 2, true, 0, 0⟩ : Job Nat) 5).Output = none ∧
      (forwardJob (⟨some 1, some 2, true, 0, 0⟩ : Job Nat) 5).tpIndex = 0 + 1 ∧
      (forwardJob (⟨some 1, some 2, true, 0, 0⟩ : Job Nat) 5).FinishedC = 5 ∧
      (forwardJob (⟨some 1, some 2, true, 0, 0⟩ : Job Nat) 5).FinishedC ∉
        [0, 1, 4] ∧
      (mkPushJob (9 : Nat) 5).FinishedC = 5 ∧
      (mkPushJob (9 : Nat) 5).FinishedC ∉ [0, 1, 4]) :=
  ⟨by decide, forward_rebuild_fresh ⟨some 1, some 2, true, 0, 0⟩ 9 5 [0, 1, 4]
    (by decide)⟩

/-- C8: the generic task adapter wraps a strongly typed `(I) → (O, ok)`
function by a runtime type assertion on the boxed input: when the dynamic
type is `I` it returns the wrapped function's result boxed at `O`, and for
every input whose dynamic type is not `I` it fails fatally (the assertion
panic) instead of returning a value. -/
theorem genericTask_assertion (I O : GoTy) (g : GenericTaskProvider I O)
    (v : I.interp) (d : Dyn) (hd : d.tag ≠ I) :
    g.Task ⟨I, v⟩ = Except.ok (⟨O, (g v).1⟩, (g v).2) ∧
    ∃ e, g.Task d = Except.error e := by
  constructor
  · unfold GenericTaskProvider.Task
    rw [dif_pos rfl]
    rfl
  · refine ⟨"interface conversion: input is not of type I", ?_⟩
    unfold GenericTaskProvider.Task
    rw [dif_neg hd]

/-- Witness for `genericTask_assertion`: an `Int → Int` generic task applied
to a correctly typed boxed `Int` and to a mismatched boxed `String`. -/
theorem genericTask_assertion_witness :
    ((⟨GoTy.tString, "x"⟩ : Dyn).tag ≠ GoTy.tInt) ∧
    (GenericTaskProvider.Task (I := GoTy.tInt) (O := GoTy.tInt)
        (fun n : Int => (n + 1, true)) ⟨GoTy.tInt, (3 : Int)⟩ =
      Except.ok (⟨GoTy.tInt, ((fun n : Int => (n + 1, true)) (3 : Int)).1⟩,
        ((fun n : Int => (n + 1, true)) (3 : Int)).2) ∧
     ∃ e, GenericTaskProvider.Task (I := GoTy.tInt) (O := GoTy.tInt)
        (fun n : Int => (n + 1, true)) ⟨GoTy.tString, "x"⟩ = Except.error e) :=
  ⟨by decide,
   genericTask_assertion GoTy.tInt GoTy.tInt (fun n : Int => (n + 1, true))
     (3 : Int) ⟨GoTy.tString, "x"⟩ (by decide)⟩

/-- C2 (code bug): the last stage's dispatch loop delivers `job.Output`
without consulting `job.Ok` (source lines 77-82 — the `!job.Ok` drop at
line 83 is reached only for non-last stages), so a single-stage pipeline
whose task returns `(6, continue = false)` on input `5` still delivers `6`
on the result queue, contrary to the claim and to the `Task` doc comment
("the job will be ignored").  For contrast, a non-last stage does drop the
same job. -/
theorem lastStage_delivers_despite_not_ok :
    pipelineRun [fun n : Nat => (n + 1, false)] false [5] = [6] ∧
    stageForward (fun n : Nat => (n + 1, false)) [5] = [] := by
  exact ⟨rfl, rfl⟩

/-- C1: in a pipeline with at least one stage, when every stage's task
reports `ok = true` along each pushed job's value chain, the values
delivered on the result queue are exactly the pushed inputs mapped through
the composition `T_N ∘ ... ∘ T_1`, in push order. -/
theorem pipelineRun_all_ok (tasks : List (Task α)) (inputs : List α)
    (hne : tasks ≠ [])
    (hok : ∀ x ∈ inputs, chainAllOk tasks x = true) :
    pipelineRun tasks false inputs = inputs.map (chain tasks) := by
  induction tasks generalizing inputs with
  | nil => exact absurd rfl hne
  | cons t rest ih =>
    cases rest with
    | nil =>
      simp [pipelineRun, stageDeliver, chain]
    | cons r rs =>
      have hfst : ∀ x ∈ inputs, (t x).2 = true := by
        intro x hx
        have hx2 := hok x hx
        simp only [chainAllOk, Bool.and_eq_true] at hx2
        exact hx2.1
      have hrest : ∀ y ∈ inputs.map (fun x => (t x).1),
          chainAllOk (r :: rs) y = true := by
        intro y hy
        obtain ⟨x, hx, rfl⟩ := List.mem_map.mp hy
        have hx2 := hok x hx
        simp only [chainAllOk, Bool.and_eq_true] at hx2
        simp only [chainAllOk, Bool.and_eq_true]
        exact hx2.2
      calc pipelineRun (t :: r :: rs) false inputs
          = pipelineRun (r :: rs) false (stageForward t inputs) := by
            simp [pipelineRun]
        _ = pipelineRun (r :: rs) false (inputs.map fun x => (t x).1) := by
            rw [stageForward_eq_map t inputs hfst]
        _ = (inputs.map fun x => (t x).1).map (chain (r :: rs)) :=
            ih _ (by simp) hrest
        _ = inputs.map (chain (t :: r :: rs)) := by
            rw [List.map_map]; rfl

/-- Witness for `pipelineRun_all_ok`: a two-stage pipeline on `Nat`,
`+1` then `*2`, over the pushed inputs `[3, 5]`. -/
theorem pipelineRun_all_ok_witness :
    (([fun n : Nat => (n + 1, true), fun n : Nat => (2 * n, true)] :
        List (Task Nat)) ≠ []) ∧
    (∀ x ∈ [3, 5],
      chainAllOk [fun n : Nat => (n + 1, true), fun n : Nat => (2 * n, true)]
        x = true) ∧
    pipelineRun [fun n : Nat => (n + 1, true), fun n : Nat => (2 * n, true)]
        false [3, 5] =
      [3, 5].map
        (chain [fun n : Nat => (n + 1, true), fun n : Nat => (2 * n, true)]) :=
  ⟨by simp, by decide, pipelineRun_all_ok _ _ (by simp) (by decide)⟩

/-- In every reachable state of a stage's dispatch loop, the forwarded list
followed by the remaining queue is exactly the admitted list: the loop only
removes jobs from the queue's head and appends them to the forwarded
list. -/
theorem dispatchReachable_decomp {admitted : List Nat} {s : DispatchState}
    (h : DispatchReachable admitted s) :
    s.forwarded ++ s.queue = admitted := by
  induction h with
  | refl => rfl
  | tail _ hstep ih =>
    cases hstep with
    | finish id hq hf => exact ih
    | dispatch id rest hq hf =>
      rw [List.append_assoc]
      simpa [hq] using ih

/-- C3: within one stage, for jobs `a` admitted before `b`, in every
reachable state of the dispatch loop — under every interleaving of task
completions, including `b` finishing before `a` — if `b` has been
forwarded then `a` was forwarded before it. -/
theorem dispatch_preserves_admission_order {admitted : List Nat}
    {s : DispatchState} {a b : Nat}
    (hreach : DispatchReachable admitted s)
    (hab : admitted.indexOf a < admitted.indexOf b)
    (hbf : b ∈ s.forwarded) :
    a ∈ s.forwarded ∧ s.forwarded.indexOf a < s.forwarded.indexOf b := by
  have hdec := dispatchReachable_decomp hreach
  subst hdec
  have hb' : List.indexOf b (s.forwarded ++ s.queue) =
      List.indexOf b s.forwarded :=
    List.indexOf_append_of_mem hbf
  have hblt : List.indexOf b s.forwarded < s.forwarded.length :=
    List.indexOf_lt_length.mpr hbf
  have haf : a ∈ s.forwarded := by
    by_contra hna
    rw [List.indexOf_append_of_not_mem hna, hb'] at hab
    omega
  have ha' : List.indexOf a (s.forwarded ++ s.queue) =
      List.indexOf a s.forwarded :=
    List.indexOf_append_of_mem haf
  rw [ha', hb'] at hab
  exact ⟨haf, hab⟩

/-- Witness for `dispatch_preserves_admission_order`: jobs `0` then `1` are
admitted; job `1`'s task finishes first, yet the loop forwards `0` before
`1` — the concrete trace is finish 1, finish 0, dispatch 0, dispatch 1. -/
theorem dispatch_preserves_admission_order_witness :
    DispatchReachable [0, 1]
      { queue := [], finished := [0, 1], forwarded := [0, 1] } ∧
    List.indexOf 0 [0, 1] < List.indexOf 1 [0, 1] ∧
    1 ∈ ([0, 1] : List Nat) ∧
    (0 ∈ ([0, 1] : List Nat) ∧
      List.indexOf 0 [0, 1] < List.indexOf 1 [0, 1]) := by
  have h1 : DispatchStep { queue := [0, 1], finished := [], forwarded := [] }
      { queue := [0, 1], finished := [1], forwarded := [] } :=
    DispatchStep.finish _ 1 (by simp) (by simp)
  have h2 : DispatchStep { queue := [0, 1], finished := [1], forwarded := [] }
      { queue := [0, 1], finished := [0, 1], forwarded := [] } :=
    DispatchStep.finish _ 0 (by simp) (by simp)
  have h3 : DispatchStep
      { queue := [0, 1], finished := [0, 1], forwarded := [] }
      { queue := [1], finished := [0, 1], forwarded := [0] } :=
    DispatchStep.dispatch _ 0 [1] rfl (by simp)
  have h4 : DispatchStep { queue := [1], finished := [0, 1], forwarded := [0] }
      { queue := [], finished := [0, 1], forwarded := [0, 1] } :=
    DispatchStep.dispatch _ 1 [] rfl (by simp)
  have hreach : DispatchReachable [0, 1]
      { queue := [], finished := [0, 1], forwarded := [0, 1] } :=
    Relation.ReflTransGen.head h1 (Relation.ReflTransGen.head h2
      (Relation.ReflTransGen.head h3
        (Relation.ReflTransGen.head h4 Relation.ReflTransGen.refl)))
  exact ⟨hreach, by decide, by decide,
    dispatch_preserves_admission_order hreach (by decide) (by decide)⟩

/-- C4 counterexample: with the shutdown broadcast already closed and no
consumer on the result channel, a last-stage dispatch loop blocked at the
delivery send (source line 79) has no step at all: the bare send
`tp.ptp.outputC <- job.Output` has no `closeC` case, so this suspension
point is not raced against the shutdown broadcast and survives `Close`
permanently. -/
theorem delivery_not_raced_with_shutdown :
    ¬ ∃ s : ProcState Nat,
        PipeStep true false true false (ProcState.loopDeliver (some 0)) s := by
  rintro ⟨s, hstep⟩
  cases hstep with
  | deliverSend o h => simp at h

/-- C4 (amended): once `Close` has fired, the admission-queue enqueue, the
completion-signal send, the dispatch-loop dequeue and the completion-signal
wait each have an immediate shutdown escape, and a unit that has observed
shutdown takes no further step — but the last stage's result delivery has
no shutdown escape and is stuck whenever no consumer is receiving. -/
theorem shutdown_escape_per_suspension (peerReady isLast noOutput : Bool)
    (j : Job Nat) (o : Option Nat) :
    (∃ s, PipeStep true peerReady isLast noOutput (ProcState.doEnqueue j) s) ∧
    (∃ s, PipeStep true peerReady isLast noOutput
      (ProcState.runSignal (α := Nat)) s) ∧
    (∃ s, PipeStep true peerReady isLast noOutput
      (ProcState.loopOuter (α := Nat)) s) ∧
    (∃ s, PipeStep true peerReady isLast noOutput (ProcState.loopInner j) s) ∧
    (¬ ∃ s, PipeStep true false isLast noOutput (ProcState.loopDeliver o) s) ∧
    (∀ s, ¬ PipeStep true peerReady isLast noOutput
      (ProcState.terminated (α := Nat)) s) := by
  refine ⟨⟨_, PipeStep.doClose j rfl⟩, ⟨_, PipeStep.runClose rfl⟩,
    ⟨_, PipeStep.outerClose rfl⟩, ⟨_, PipeStep.innerClose j rfl⟩, ?_, ?_⟩
  · rintro ⟨s, hstep⟩
    cases hstep with
    | deliverSend o h => simp at h
  · intro s hstep
    cases hstep

end RainbowCat
